import Mathlib

/-!
Verification of the matterbridge-to-webhook message relay pipeline.

The development embeds the pipeline of `main.go`:
  * `Message` — the record decoded from each stream line (struct `Message`).
  * `decodeMessage` / `unmarshalLine` — the boundary behaviour of
    `json.Unmarshal` of one line into a `Message` value.
  * `readLoop` / `getMessages` — the stream reader `getMessages`.
  * `processOne` / `processList` — the forwarding worker `processMessages`.
  * `resetBackoff` / `nextBackoff` / `retrySteps` — the reconnect supervisor.

External effects (HTTP transport, JSON text scanning) are abstracted as
oracles: each fallible library call is a parameter telling whether it
succeeded, and the control flow around those calls is translated from the
source.
-/

namespace MBW

/-- The `Message` struct of main.go: twelve string fields decoded from one
JSON record received from matterbridge. -/
structure Message where
  text      : String
  channel   : String
  username  : String
  userid    : String
  avatar    : String
  account   : String
  event     : String
  protocol  : String
  gateway   : String
  parentId  : String
  timestamp : String
  id        : String
deriving Repr, DecidableEq

/-- The zero value of the Go struct `Message`: every field is the empty
string. `json.Unmarshal` starts from this value. -/
def emptyMessage : Message :=
  ⟨"", "", "", "", "", "", "", "", "", "", "", ""⟩

/-- A JSON value, as far as the boundary with `encoding/json` needs:
strings, numbers, booleans, null, arrays and ordered objects. -/
inductive Json where
  | null
  | bool (b : Bool)
  | num (n : Int)
  | str (s : String)
  | arr (xs : List Json)
  | obj (fields : List (String × Json))
deriving Repr

/-- Boundary behaviour of `json.Unmarshal` for one key of the object being
decoded into a `Message`: a key matching a struct tag requires a JSON
string (set the field) or JSON null (leave the field unchanged, no error);
any other value for a known key is a type error; unknown keys are
ignored. -/
def setField (m : Message) (k : String) (v : Json) : Except Unit Message :=
  if k = "text" then
    match v with
    | Json.str s => Except.ok { m with text := s }
    | Json.null => Except.ok m
    | _ => Except.error ()
  else if k = "channel" then
    match v with
    | Json.str s => Except.ok { m with channel := s }
    | Json.null => Except.ok m
    | _ => Except.error ()
  else if k = "username" then
    match v with
    | Json.str s => Except.ok { m with username := s }
    | Json.null => Except.ok m
    | _ => Except.error ()
  else if k = "userid" then
    match v with
    | Json.str s => Except.ok { m with userid := s }
    | Json.null => Except.ok m
    | _ => Except.error ()
  else if k = "avatar" then
    match v with
    | Json.str s => Except.ok { m with avatar := s }
    | Json.null => Except.ok m
    | _ => Except.error ()
  else if k = "account" then
    match v with
    | Json.str s => Except.ok { m with account := s }
    | Json.null => Except.ok m
    | _ => Except.error ()
  else if k = "event" then
    match v with
    | Json.str s => Except.ok { m with event := s }
    | Json.null => Except.ok m
    | _ => Except.error ()
  else if k = "protocol" then
    match v with
    | Json.str s => Except.ok { m with protocol := s }
    | Json.null => Except.ok m
    | _ => Except.error ()
  else if k = "gateway" then
    match v with
    | Json.str s => Except.ok { m with gateway := s }
    | Json.null => Except.ok m
    | _ => Except.error ()
  else if k = "parent_id" then
    match v with
    | Json.str s => Except.ok { m with parentId := s }
    | Json.null => Except.ok m
    | _ => Except.error ()
  else if k = "timestamp" then
    match v with
    | Json.str s => Except.ok { m with timestamp := s }
    | Json.null => Except.ok m
    | _ => Except.error ()
  else if k = "id" then
    match v with
    | Json.str s => Except.ok { m with id := s }
    | Json.null => Except.ok m
    | _ => Except.error ()
  else
    Except.ok m

/-- Applies the object's keys in order, as `json.Unmarshal` does; a later
duplicate key overwrites an earlier one; the first type error aborts the
decode of this record. -/
def decodeFields : Message → List (String × Json) → Except Unit Message
  | m, [] => Except.ok m
  | m, (k, v) :: rest =>
    match setField m k v with
    | Except.ok m' => decodeFields m' rest
    | Except.error e => Except.error e

/-- Boundary behaviour of `json.Unmarshal(line, &msg)` on a parsed JSON
value: `null` leaves the zero value unchanged and succeeds; an object
decodes field by field; any other JSON value cannot decode into a struct
and errors. -/
def decodeMessage : Json → Except Unit Message
  | Json.null => Except.ok emptyMessage
  | Json.obj fs => decodeFields emptyMessage fs
  | _ => Except.error ()

/-- One physical line read from the stream body: `none` is a line that is
not valid JSON text (the scanner fails before any value is produced),
`some j` is a line whose text parses to the JSON value `j`. -/
abbrev Line : Type := Option Json

/-- Result of `json.Unmarshal` on one line. -/
def unmarshalLine : Line → Except Unit Message
  | none => Except.error ()
  | some j => decodeMessage j

/-- The chat message a line contributes to the hand-off channel, when it
does: a line that decodes to a `Message` whose `event` field is empty. -/
def chatOf (l : Line) : Option Message :=
  match unmarshalLine l with
  | Except.ok m => if m.event = "" then some m else none
  | Except.error _ => none

/-! ### Backoff policy

Modelled from the spec: the `backoff` library used by `run` and
`getMessages` (package `github.com/cenkalti/backoff/v4`) is not part of
the repository's sources; its behaviour is taken from spec section 4.2 —
exponential backoff with multiplicative growth per attempt up to a bounded
maximum delay, reset returning the delay to its initial value. Jitter is
omitted (it does not affect any claim below). -/

/-- Modelled from the spec: the constants of an exponential backoff policy
(section 4.2 — initial delay, multiplicative growth factor, bounded
maximum delay). -/
structure BackoffPolicy where
  initialInterval : ℚ
  multiplier : ℚ
  maxInterval : ℚ
deriving Repr, DecidableEq

/-- The mutable backoff state: the current delay interval. -/
abbrev BackoffState : Type := ℚ

/-- Modelled from the spec: `b.Reset()` returns the backoff delay to its
initial value (section 4.2: any successful message delivery "resets the
backoff delay to its initial value"). -/
def resetBackoff (p : BackoffPolicy) (_b : BackoffState) : BackoffState :=
  p.initialInterval

/-- Modelled from the spec: one backoff step yields the current delay and
escalates the stored interval multiplicatively up to the bounded maximum
(section 4.2). -/
def nextBackoff (p : BackoffPolicy) (b : BackoffState) : ℚ × BackoffState :=
  (b, min (b * p.multiplier) p.maxInterval)

/-! ### Stream reader -/

/-- Observable outcome of one invocation of `getMessages`: the messages
sent on the hand-off channel in order, the `messageReceived` and
`processingError` counter increments, and the backoff state left behind. -/
structure ReadState where
  sent : List Message
  received : Nat
  procErrs : Nat
  backoff : BackoffState

/-- The read loop of `getMessages` (main.go lines 119-146) over the lines
the stream yields before the read error: a line that fails to unmarshal
increments the processing-error counter and continues; a record with a
non-empty `event` is logged and skipped; a chat message is sent on the
channel, increments the received counter and resets the backoff state. -/
def readLoop (p : BackoffPolicy) : BackoffState → List Line → ReadState
  | b, [] => ⟨[], 0, 0, b⟩
  | b, l :: rest =>
    match unmarshalLine l with
    | Except.error _ =>
      let r := readLoop p b rest
      ⟨r.sent, r.received, r.procErrs + 1, r.backoff⟩
    | Except.ok msg =>
      if msg.event = "" then
        let r := readLoop p (resetBackoff p b) rest
        ⟨msg :: r.sent, r.received + 1, r.procErrs, r.backoff⟩
      else
        readLoop p b rest

/-- The error classification returned by `getMessages`: `backoff.Permanent`
wrapping versus a plain (retryable) error. -/
inductive BErr where
  | permanent (e : String)
  | transient (e : String)
deriving Repr, DecidableEq

/-- Result of one invocation of `getMessages`. -/
structure GetResult where
  err : BErr
  sent : List Message
  received : Nat
  procErrs : Nat
  backoff : BackoffState

/-- `getMessages` (main.go lines 90-147). The fallible library calls are
oracles: `joinE` is the error of `url.JoinPath` (if any), `reqE` of
`http.NewRequest`, `doE` of `http.DefaultClient.Do`; `readE` is the read
error that eventually ends the line loop, and `lines` are the lines the
stream yields before it. URL and request construction failures are wrapped
`backoff.Permanent`; the transport failure and the read error are plain
errors. -/
def getMessages (p : BackoffPolicy) (joinE reqE doE : Option String)
    (readE : String) (lines : List Line) (b : BackoffState) : GetResult :=
  match joinE with
  | some e => ⟨BErr.permanent ("failed to build url: " ++ e), [], 0, 0, b⟩
  | none =>
    match reqE with
    | some e => ⟨BErr.permanent ("failed to build request: " ++ e), [], 0, 0, b⟩
    | none =>
      match doE with
      | some e => ⟨BErr.transient ("failed to request messages: " ++ e), [], 0, 0, b⟩
      | none =>
        let r := readLoop p b lines
        ⟨BErr.transient ("failed to read messages: " ++ readE),
          r.sent, r.received, r.procErrs, r.backoff⟩

/-! ### Reconnect supervisor -/

/-- Modelled from the spec: `backoff.RetryNotify` (section 4.2) — on a
permanent error the loop returns it; on a transient error it computes the
next delay, waits and retries; there is no retry-count bound, so we index
runs by a fuel `n` of attempts to observe: `none` means the loop had not
returned within `n` attempts. `f` gives the error that attempt number `k`
ends with. -/
def retrySteps (p : BackoffPolicy) (f : Nat → BErr) : Nat → Nat → BackoffState → Option String
  | _, 0, _ => none
  | k, n + 1, b =>
    match f k with
    | BErr.permanent e => some e
    | BErr.transient _ => retrySteps p f (k + 1) n (nextBackoff p b).2

/-! ### Forwarding worker -/

/-- Go `strings.HasPrefix(s, pre)`: whether `s` starts with `pre`. -/
def strHasPre (s pre : String) : Bool :=
  pre.data.isPrefixOf s.data

/-- The filter condition of `processMessages` (main.go line 53): a prefix
is configured and the message text does not begin with it. -/
def shouldDrop (pre : String) (m : Message) : Bool :=
  pre != "" && !(strHasPre m.text pre)

/-- Go `encoding/json` marshalling of one `Message`: an object whose keys
are the struct tags in declaration order, every value the corresponding
string field. -/
def msgJson (m : Message) : Json :=
  Json.obj
    [("text", Json.str m.text), ("channel", Json.str m.channel),
     ("username", Json.str m.username), ("userid", Json.str m.userid),
     ("avatar", Json.str m.avatar), ("account", Json.str m.account),
     ("event", Json.str m.event), ("protocol", Json.str m.protocol),
     ("gateway", Json.str m.gateway), ("parent_id", Json.str m.parentId),
     ("timestamp", Json.str m.timestamp), ("id", Json.str m.id)]

/-- An outbound HTTP request as `processMessages` builds it: method, URL,
headers set, and the JSON body. -/
structure HttpRequest where
  method : String
  url : String
  headers : List (String × String)
  body : Json

/-- The POST request `processMessages` issues for an admitted message:
`http.NewRequest("POST", webhookUrl, body)` with the body
`json.Marshal([]Message{msg})` — a one-element JSON array — and the header
`Content-Type: application/json`. -/
def mkWebhookRequest (url : String) (m : Message) : HttpRequest :=
  ⟨"POST", url, [("Content-Type", "application/json")], Json.arr [msgJson m]⟩

/-- Oracle for the fallible library calls of one `processMessages`
iteration: whether `json.Marshal` succeeds, whether `http.NewRequest`
succeeds, and the outcome of `http.DefaultClient.Do` — a transport error,
or completion with some HTTP status code. -/
structure DeliveryOracle where
  marshalOk : Bool
  buildOk : Bool
  doRes : Except Unit Nat

/-- The oracle of a fully healthy delivery: every call succeeds and the
webhook answers 200. -/
def okOracle : DeliveryOracle := ⟨true, true, Except.ok 200⟩

/-- Observable outcome of one `processMessages` iteration: the
`messageDropped`, `processingError` and `messageForwarded` counter
increments, and the request issued to the webhook, when one was. -/
structure StepResult where
  dropped : Nat
  procErrs : Nat
  forwarded : Nat
  request : Option HttpRequest

/-- One iteration of `processMessages` (main.go lines 50-86) on the message
taken from the channel: drop it if a prefix is configured and the text
lacks it; otherwise marshal, build and send the request, each failure
counting a processing error and moving on; a completed request counts the
message as forwarded, whatever the status code (the response is
discarded). -/
def processOne (url pre : String) (o : DeliveryOracle) (m : Message) : StepResult :=
  if shouldDrop pre m then
    ⟨1, 0, 0, none⟩
  else if !o.marshalOk then
    ⟨0, 1, 0, none⟩
  else if !o.buildOk then
    ⟨0, 1, 0, none⟩
  else
    match o.doRes with
    | Except.error _ => ⟨0, 1, 0, some (mkWebhookRequest url m)⟩
    | Except.ok _ => ⟨0, 0, 1, some (mkWebhookRequest url m)⟩

/-- The `processMessages` loop over the sequence of messages received from
the channel, one iteration each, in order. -/
def processList (url pre : String) (o : DeliveryOracle) : List Message → List StepResult
  | [] => []
  | m :: rest => processOne url pre o m :: processList url pre o rest

/-- The requests the webhook receives, in order. -/
def deliveredRequests (url pre : String) (o : DeliveryOracle) (msgs : List Message) :
    List HttpRequest :=
  (processList url pre o msgs).filterMap (fun r => r.request)

/-! ### Helper lemmas -/

/-- The messages a read loop sends on the channel are exactly the decoded
chat messages of its lines, in stream order. -/
theorem readLoop_sent_eq (p : BackoffPolicy) (lines : List Line) :
    ∀ b, (readLoop p b lines).sent = lines.filterMap chatOf := by
  induction lines with
  | nil => intro b; rfl
  | cons l rest ih =>
    intro b
    cases h : unmarshalLine l with
    | error e => simp [readLoop, h, chatOf, ih]
    | ok m =>
      by_cases hev : m.event = ""
      · simp [readLoop, h, hev, chatOf, ih]
      · simp [readLoop, h, hev, chatOf, ih]

/-- A line only contributes a chat message with empty `event` field. -/
theorem chatOf_event_empty {l : Line} {m : Message} (h : chatOf l = some m) :
    m.event = "" := by
  unfold chatOf at h
  cases hu : unmarshalLine l with
  | error e => simp [hu] at h
  | ok m' =>
    rw [hu] at h
    by_cases hev : m'.event = ""
    · simp [hev] at h
      simpa [← h] using hev
    · simp [hev] at h

/-- The backoff state threads left to right through the read loop. -/
theorem readLoop_backoff_append (p : BackoffPolicy) (xs : List Line) :
    ∀ b ys, (readLoop p b (xs ++ ys)).backoff
      = (readLoop p (readLoop p b xs).backoff ys).backoff := by
  induction xs with
  | nil => intro b ys; rfl
  | cons l rest ih =>
    intro b ys
    cases h : unmarshalLine l with
    | error e => simp [readLoop, h, ih]
    | ok m =>
      by_cases hev : m.event = ""
      · simp [readLoop, h, hev, ih]
      · simp [readLoop, h, hev, ih]

/-- A stretch of lines with no chat message leaves the backoff state
untouched. -/
theorem readLoop_backoff_of_no_chat (p : BackoffPolicy) (ls : List Line) :
    ∀ b, (∀ l ∈ ls, chatOf l = none) → (readLoop p b ls).backoff = b := by
  induction ls with
  | nil => intro b _; rfl
  | cons l rest ih =>
    intro b h
    have hl : chatOf l = none := h l (List.mem_cons_self l rest)
    have hrest : ∀ l' ∈ rest, chatOf l' = none :=
      fun l' hm => h l' (List.mem_cons_of_mem l hm)
    cases hu : unmarshalLine l with
    | error e => simp [readLoop, hu, ih _ hrest]
    | ok m =>
      by_cases hev : m.event = ""
      · simp [chatOf, hu, hev] at hl
      · simp [readLoop, hu, hev, ih _ hrest]

/-- With no configured prefix and a healthy delivery oracle, every message
is forwarded as its webhook request. -/
theorem processOne_empty_pre (url : String) (m : Message) :
    processOne url "" okOracle m = ⟨0, 0, 1, some (mkWebhookRequest url m)⟩ := rfl

/-- A retry loop whose every attempt ends in a transient error never
returns, whatever the fuel, attempt index and backoff state. -/
theorem retrySteps_of_transient (p : BackoffPolicy) (f : Nat → BErr)
    (h : ∀ i, ∃ e, f i = BErr.transient e) :
    ∀ n k b, retrySteps p f k n b = none := by
  intro n
  induction n with
  | zero => intro k b; rfl
  | succ n ih =>
    intro k b
    obtain ⟨e, he⟩ := h k
    simp only [retrySteps]
    rw [he]
    exact ih (k + 1) (nextBackoff p b).2

/-! ### Claims -/

/-- C1: for every unbroken sequence of transient stream errors — attempts
in which URL construction and request construction succeed, so `getMessages`
ends in a plain (transient) error — the spec-modelled retry supervisor
never returns an error within any number `n` of consecutive failed
attempts: no amount of transient failure makes the retry loop surface an
error to `run`. -/
theorem supervisor_retries_indefinitely (p : BackoffPolicy)
    (doE : Nat → Option String) (readE : Nat → String)
    (ls : Nat → List Line) (bs : Nat → BackoffState) :
    ∀ n k b,
      retrySteps p
        (fun i => (getMessages p none none (doE i) (readE i) (ls i) (bs i)).err)
        k n b = none := by
  have hf : ∀ i, ∃ e,
      (getMessages p none none (doE i) (readE i) (ls i) (bs i)).err
        = BErr.transient e := by
    intro i
    cases doE i with
    | none => exact ⟨"failed to read messages: " ++ readE i, rfl⟩
    | some e => exact ⟨"failed to request messages: " ++ e, rfl⟩
  exact retrySteps_of_transient p _ hf

/-- C4: `getMessages` classifies its errors as the taxonomy requires — a
URL-construction failure and a request-construction failure come back
wrapped `backoff.Permanent`, while a failure issuing the streaming GET and
a read error from the stream body come back as plain transient errors; and
the spec-modelled retry loop returns a permanent error immediately instead
of retrying it. -/
theorem getMessages_error_classification (p : BackoffPolicy) (e readE : String)
    (reqE doE : Option String) (lines : List Line) (b : BackoffState)
    (k n : Nat) :
    (getMessages p (some e) reqE doE readE lines b).err
        = BErr.permanent ("failed to build url: " ++ e)
    ∧ (getMessages p none (some e) doE readE lines b).err
        = BErr.permanent ("failed to build request: " ++ e)
    ∧ (getMessages p none none (some e) readE lines b).err
        = BErr.transient ("failed to request messages: " ++ e)
    ∧ (getMessages p none none none readE lines b).err
        = BErr.transient ("failed to read messages: " ++ readE)
    ∧ retrySteps p (fun _ => BErr.permanent e) k (n + 1) b = some e :=
  ⟨rfl, rfl, rfl, rfl, rfl⟩

/-- C3: a decoded record whose `event` field is non-empty is never sent on
the hand-off channel: everything the read loop sends has an empty `event`
field, and a message with non-empty `event` is not among the sent
messages (so it can never reach the forwarding worker or trigger a
webhook call). -/
theorem events_never_enqueued (p : BackoffPolicy) (b : BackoffState)
    (lines : List Line) (m : Message) :
    (m ∈ (readLoop p b lines).sent → m.event = "")
    ∧ (m.event ≠ "" → m ∉ (readLoop p b lines).sent) := by
  constructor
  · intro hm
    rw [readLoop_sent_eq] at hm
    obtain ⟨l, _, hl⟩ := List.mem_filterMap.mp hm
    exact chatOf_event_empty hl
  · intro hev hm
    rw [readLoop_sent_eq] at hm
    obtain ⟨l, _, hl⟩ := List.mem_filterMap.mp hm
    exact hev (chatOf_event_empty hl)

/-- C3 witness: the chat line `{"text":"hi"}` is enqueued, and the theorem
applies to it, giving that its `event` field is empty. -/
theorem events_never_enqueued_witness :
    ({ emptyMessage with text := "hi" } : Message).event = "" :=
  (events_never_enqueued ⟨1, 2, 60⟩ 5
      [some (Json.obj [("text", Json.str "hi")])]
      { emptyMessage with text := "hi" }).1 (by decide)

/-- C9: under normal operation (healthy delivery oracle, no configured
prefix), the webhook receives exactly one POST per chat message the
stream yielded, as one-element arrays, in the same relative order — the
delivered request list is literally the map of `mkWebhookRequest` over the
decoded chat messages, so nothing is skipped, duplicated or reordered. -/
theorem pipeline_preserves_order (url : String) (p : BackoffPolicy)
    (b : BackoffState) (lines : List Line) :
    deliveredRequests url "" okOracle (readLoop p b lines).sent
      = (lines.filterMap chatOf).map (mkWebhookRequest url)
    ∧ (readLoop p b lines).sent = lines.filterMap chatOf := by
  have hmap : ∀ msgs : List Message,
      deliveredRequests url "" okOracle msgs = msgs.map (mkWebhookRequest url) := by
    intro msgs
    induction msgs with
    | nil => rfl
    | cons m rest ih =>
      simp [deliveredRequests, processList, processOne_empty_pre] at ih ⊢
      exact ih
  refine ⟨?_, readLoop_sent_eq p lines b⟩
  rw [readLoop_sent_eq, hmap]

/-- C10: a stream line whose JSON decodes but sets no fields (`null` or
`{}`) is a valid chat message: it decodes to the zero-value `Message`
whose every field is the empty string, its `event` is empty so the read
loop enqueues it, counts it received and resets backoff, and with no
configured prefix the worker forwards it as a one-element array. -/
theorem empty_record_is_chat_message (p : BackoffPolicy) (b : BackoffState)
    (url : String) :
    unmarshalLine (some Json.null) = Except.ok emptyMessage
    ∧ unmarshalLine (some (Json.obj [])) = Except.ok emptyMessage
    ∧ emptyMessage = ⟨"", "", "", "", "", "", "", "", "", "", "", ""⟩
    ∧ readLoop p b [some Json.null] = ⟨[emptyMessage], 1, 0, p.initialInterval⟩
    ∧ processOne url "" okOracle emptyMessage
        = ⟨0, 0, 1, some (mkWebhookRequest url emptyMessage)⟩ :=
  ⟨rfl, rfl, rfl, rfl, rfl⟩

/-- C2: with a configured non-empty prefix the worker forwards a message
iff its text starts with the prefix; a message without the prefix is
counted dropped and no request is issued, whatever the delivery oracle;
with the empty prefix the filter is a no-op and every message is
forwarded; the drop decision depends only on the message text and the
prefix; and processing a message is independent of the messages processed
before it. -/
theorem forwarding_filter_correct (url pre : String) (o : DeliveryOracle)
    (m m' : Message) (ms : List Message) :
    (pre ≠ "" →
      (processOne url pre okOracle m).request.isSome = strHasPre m.text pre)
    ∧ (pre ≠ "" → strHasPre m.text pre = false →
        processOne url pre o m = ⟨1, 0, 0, none⟩)
    ∧ (processOne url "" o m).dropped = 0
    ∧ processOne url "" okOracle m = ⟨0, 0, 1, some (mkWebhookRequest url m)⟩
    ∧ (m.text = m'.text →
        (processOne url pre o m).dropped = (processOne url pre o m').dropped)
    ∧ processList url pre o (ms ++ [m])
        = processList url pre o ms ++ [processOne url pre o m] := by
  refine ⟨?_, ?_, ?_, processOne_empty_pre url m, ?_, ?_⟩
  · intro h
    have hb : (pre != "") = true := bne_iff_ne.mpr h
    cases hs : strHasPre m.text pre <;>
      simp [processOne, shouldDrop, hb, hs, okOracle]
  · intro h hs
    have hb : (pre != "") = true := bne_iff_ne.mpr h
    simp [processOne, shouldDrop, hb, hs]
  · rcases o with ⟨mo, bo, dr⟩
    cases mo <;> cases bo <;> cases dr <;> rfl
  · intro h
    have hd : shouldDrop pre m = shouldDrop pre m' := by
      simp [shouldDrop, h]
    rcases o with ⟨mo, bo, dr⟩
    cases hsd : shouldDrop pre m' <;>
      cases mo <;> cases bo <;> cases dr <;>
        simp [processOne, hd, hsd]
  · induction ms with
    | nil => rfl
    | cons x xs ih => simp [processList, ih]

/-- C2 witness: with prefix `"!"`, the message `"!p"` is forwarded and the
message `"p"` is dropped with no request issued. -/
theorem forwarding_filter_correct_witness :
    (processOne "u" "!" okOracle { emptyMessage with text := "!p" }).request.isSome
      = true
    ∧ processOne "u" "!" okOracle { emptyMessage with text := "p" }
        = ⟨1, 0, 0, none⟩ := by
  constructor
  · have h := (forwarding_filter_correct "u" "!" okOracle
      { emptyMessage with text := "!p" } emptyMessage []).1 (by decide)
    rw [h]
    decide
  · exact (forwarding_filter_correct "u" "!" okOracle
      { emptyMessage with text := "p" } emptyMessage []).2.1 (by decide) (by decide)

/-- C5: when a chat message is received (sent on the channel) and no chat
message follows it before the stream fails, the backoff state left behind
is the initial interval, so the delay used for the next transient failure
is the initial delay, not an escalated one carried over from before the
success. -/
theorem backoff_reset_on_success (p : BackoffPolicy) (b : BackoffState)
    (l1 : List Line) (l : Line) (l2 : List Line) (m : Message)
    (hm : unmarshalLine l = Except.ok m) (hev : m.event = "")
    (h2 : ∀ l' ∈ l2, chatOf l' = none) :
    (readLoop p b (l1 ++ l :: l2)).backoff = p.initialInterval
    ∧ (nextBackoff p (readLoop p b (l1 ++ l :: l2)).backoff).1
        = p.initialInterval := by
  have key : (readLoop p b (l1 ++ l :: l2)).backoff = p.initialInterval := by
    rw [readLoop_backoff_append]
    simp only [readLoop, hm, hev, if_pos]
    rw [readLoop_backoff_of_no_chat p l2 _ h2]
    rfl
  refine ⟨key, ?_⟩
  rw [key]
  rfl

/-- C5 witness: after the chat line `null` followed by one malformed line,
the backoff state is the initial interval `1` even though it was `7`
beforehand. -/
theorem backoff_reset_on_success_witness :
    (readLoop ⟨1, 2, 60⟩ 7 ([] ++ some Json.null :: [none])).backoff = (1 : ℚ) := by
  have h := backoff_reset_on_success ⟨1, 2, 60⟩ 7 [] (some Json.null) [none]
    emptyMessage rfl rfl (by decide)
  exact h.1

/-- C6: a line that fails JSON decoding is non-fatal — the read loop
counts one processing error and behaves on the remaining lines exactly as
if the bad line were absent; in particular one invalid line between two
valid chat messages loses neither message and costs exactly one
processing-error count. -/
theorem malformed_line_resilience (p : BackoffPolicy) (b : BackoffState)
    (l lg1 lg2 : Line) (rest : List Line) (m1 m2 : Message) :
    (unmarshalLine l = Except.error () →
      readLoop p b (l :: rest)
        = ⟨(readLoop p b rest).sent, (readLoop p b rest).received,
            (readLoop p b rest).procErrs + 1, (readLoop p b rest).backoff⟩)
    ∧ (unmarshalLine lg1 = Except.ok m1 → m1.event = "" →
        unmarshalLine l = Except.error () →
        unmarshalLine lg2 = Except.ok m2 → m2.event = "" →
        (readLoop p b [lg1, l, lg2]).sent = [m1, m2]
        ∧ (readLoop p b [lg1, l, lg2]).procErrs = 1) := by
  constructor
  · intro h
    simp [readLoop, h]
  · intro h1 hev1 hl h2 hev2
    constructor <;> simp [readLoop, h1, hev1, hl, h2, hev2]

/-- C6 witness: the stream `{"text":"a"}`, malformed, `{"username":"u"}`
yields both valid messages in order and exactly one processing error. -/
theorem malformed_line_resilience_witness :
    (readLoop ⟨1, 2, 60⟩ 5
        [some (Json.obj [("text", Json.str "a")]), none,
          some (Json.obj [("username", Json.str "u")])]).sent
      = [{ emptyMessage with text := "a" }, { emptyMessage with username := "u" }]
    ∧ (readLoop ⟨1, 2, 60⟩ 5
        [some (Json.obj [("text", Json.str "a")]), none,
          some (Json.obj [("username", Json.str "u")])]).procErrs = 1 :=
  (malformed_line_resilience ⟨1, 2, 60⟩ 5 none
      (some (Json.obj [("text", Json.str "a")]))
      (some (Json.obj [("username", Json.str "u")])) []
      { emptyMessage with text := "a" } { emptyMessage with username := "u" }).2
    rfl rfl rfl rfl rfl

/-- C7: for every message admitted by the filter, the request issued is an
HTTP POST to the configured webhook URL with header
`Content-Type: application/json` whose body is the JSON encoding of the
one-element array containing that message (an array-of-one, never a bare
object); decoding the encoded object recovers the message, so no field is
modified. -/
theorem webhook_request_shape (url pre : String) (m : Message)
    (h : shouldDrop pre m = false) :
    (processOne url pre okOracle m).request = some (mkWebhookRequest url m)
    ∧ mkWebhookRequest url m
        = ⟨"POST", url, [("Content-Type", "application/json")],
            Json.arr [msgJson m]⟩
    ∧ decodeMessage (msgJson m) = Except.ok m := by
  refine ⟨?_, rfl, ?_⟩
  · simp [processOne, h, okOracle]
  · cases m
    rfl

/-- C7 witness: the empty message with no prefix configured is sent as the
array-of-one POST request, and its encoding decodes back to itself. -/
theorem webhook_request_shape_witness :
    (processOne "hook" "" okOracle emptyMessage).request
        = some (mkWebhookRequest "hook" emptyMessage)
    ∧ decodeMessage (msgJson emptyMessage) = Except.ok emptyMessage := by
  have h := webhook_request_shape "hook" "" emptyMessage rfl
  exact ⟨h.1, h.2.2⟩

/-- C8: per-message failures in the worker are non-fatal — a marshal
failure, a request-build failure, or a transport failure each count one
processing error and issue no further attempt for that message; a request
that completes counts the message as forwarded whatever the HTTP status
code; and the loop processes the next channel message regardless of the
current one's outcome. -/
theorem forwarding_failure_isolation (url pre : String) (m : Message)
    (bo : Bool) (dr : Except Unit Nat) (s : Nat) (o : DeliveryOracle)
    (rest : List Message) (h : shouldDrop pre m = false) :
    processOne url pre ⟨false, bo, dr⟩ m = ⟨0, 1, 0, none⟩
    ∧ processOne url pre ⟨true, false, dr⟩ m = ⟨0, 1, 0, none⟩
    ∧ processOne url pre ⟨true, true, Except.error ()⟩ m
        = ⟨0, 1, 0, some (mkWebhookRequest url m)⟩
    ∧ processOne url pre ⟨true, true, Except.ok s⟩ m
        = ⟨0, 0, 1, some (mkWebhookRequest url m)⟩
    ∧ processList url pre o (m :: rest)
        = processOne url pre o m :: processList url pre o rest := by
  refine ⟨?_, ?_, ?_, ?_, rfl⟩ <;> simp [processOne, h]

/-- C8 witness: a marshal failure on the empty message counts one
processing error and issues nothing, while a completed request with
status 500 still counts the message as forwarded. -/
theorem forwarding_failure_isolation_witness :
    processOne "u" "" ⟨false, true, Except.ok 200⟩ emptyMessage
        = ⟨0, 1, 0, none⟩
    ∧ processOne "u" "" ⟨true, true, Except.ok 500⟩ emptyMessage
        = ⟨0, 0, 1, some (mkWebhookRequest "u" emptyMessage)⟩ := by
  have h := forwarding_failure_isolation "u" "" emptyMessage true
    (Except.ok 200) 500 okOracle [] rfl
  exact ⟨h.1, h.2.2.2.1⟩

end MBW
